import Mathlib

/-!
# Verification of the tic-tac-toe matchmaking server

A shallow embedding of the server core of the `tic-tac-toe-sim` repository:
the pure board evaluation (`checkWinner`), match creation (`startMatch`),
the socket event handlers for `join`, `move` and `disconnect` (both server
variants present in the sources), and the persistence layer
(`addWin` / `addLoss` / `addDraw` / `ensurePlayerStats` over an association-list
model of the `players` table).

JavaScript `Map` objects are modelled as association lists preserving
insertion order (`Registry`); socket emissions are recorded as a list of
`OutEvent` values addressed by connection id; database calls are recorded
both as state updates on the `DB` model and as a list of `PersistCall`
values.  `Math.random() < 0.5` is modelled as an explicit `coin : Bool`
parameter.
-/

namespace TicTacToe

/-- The two marks, `'X' | 'O'` in the source. -/
inductive Mark
| X
| O
deriving DecidableEq, Repr

/-- Embeds `mark === 'X' ? 'O' : 'X'` — the turn flip used by the move handler. -/
def Mark.other : Mark → Mark
| .X => .O
| .O => .X

/-- A board cell, `'' | Mark` in the source; the empty string is `none`. -/
abbrev Cell := Option Mark

/-- The result value `Mark | 'draw'` used in `gameOver` payloads and by
`checkWinner` (whose `null` is `Option.none` one level up). -/
inductive RValue
| mark (m : Mark)
| draw
deriving DecidableEq, Repr

/-- The `Player` record of the source (`socket` handle replaced by the
stable connection id it is addressed with). -/
structure Player where
  id : String
  name : String
  mark : Mark
  gameId : Option String := none
deriving DecidableEq, Repr

/-- The `Game` record of the source; `players : Record<Mark, Player>`
becomes the two fields `playerX` / `playerO`. -/
structure Game where
  id : String
  board : List Cell
  playerX : Player
  playerO : Player
  turn : Mark
  finished : Bool
deriving DecidableEq, Repr

/-- The `games : Map<string, Game>` registry, as an insertion-ordered
association list (JavaScript `Map` iterates in insertion order). -/
abbrev Registry := List (String × Game)

/-- Embeds `games.get(k)`. -/
def mapGet (m : Registry) (k : String) : Option Game :=
  (m.find? (fun e => e.1 == k)).map (fun e => e.2)

/-- Embeds `games.set(k, v)`: replaces in place when the key is present
(JavaScript `Map.set` keeps the original position), appends otherwise. -/
def mapSet (m : Registry) (k : String) (v : Game) : Registry :=
  if m.any (fun e => e.1 == k) then
    m.map (fun e => if e.1 == k then (k, v) else e)
  else m ++ [(k, v)]

/-- Embeds `games.delete(k)`. -/
def mapDelete (m : Registry) (k : String) : Registry :=
  m.filter (fun e => !(e.1 == k))

/-- The eight winning triples of `checkWinner`, in source order:
three rows, three columns, two diagonals. -/
def winLines : List (Nat × Nat × Nat) :=
  [(0,1,2),(3,4,5),(6,7,8),(0,3,6),(1,4,7),(2,5,8),(0,4,8),(2,4,6)]

/-- Embeds `board[i]`; out-of-range access yields `undefined`, which compares
unequal to every mark and is falsy, exactly like the empty cell here. -/
def boardAt (board : List Cell) (i : Nat) : Cell :=
  board.getD i none

/-- One iteration of the `for (const [a,b,c] of lines)` loop body:
`board[a] && board[a] === board[b] && board[b] === board[c]`. -/
def lineWinner (board : List Cell) (l : Nat × Nat × Nat) : Option Mark :=
  match boardAt board l.1 with
  | none => none
  | some m =>
    if boardAt board l.2.1 = some m ∧ boardAt board l.2.2 = some m then some m else none

/-- Embeds `checkWinner(board)`: first completed line wins; a full board with no
completed line is a draw; otherwise the game is ongoing (`null`). -/
def checkWinner (board : List Cell) : Option RValue :=
  match winLines.findSome? (lineWinner board) with
  | some m => some (.mark m)
  | none => if board.all (fun c => c.isSome) then some .draw else none

/-- Calls into the persistence layer, recorded by name. -/
inductive PersistCall
| win (name : String)
| loss (name : String)
| draw (name : String)
| ensure (name : String)
deriving DecidableEq, Repr

/-- Outbound socket emissions, tagged with the recipient connection id. -/
inductive OutEvent
| waiting (dest : String)
| profile (dest : String) (name : String) (known : Bool)
| matchStarted (dest : String) (gameId : String) (youAre : Mark) (opponent : String)
| state (dest : String) (gameId : String) (board : List Cell) (turn : Mark)
| gameOver (dest : String) (gameId : String) (result : RValue)
| errorMsg (dest : String) (message : String)
deriving DecidableEq, Repr

/-- Embeds the trim of `name?.trim() || dflt` as used by `persistResultSafe` to fall back to
`Jogador_X` / `Jogador_O` on blank names. -/
def jsTrim (s : String) : String :=
  ⟨((s.data.dropWhile Char.isWhitespace).reverse.dropWhile Char.isWhitespace).reverse⟩

/-- Embeds `s.slice(0, n)`. -/
def jsSlice (s : String) (n : Nat) : String :=
  ⟨s.data.take n⟩

/-- Embeds `game.players.M.name?.trim() || dflt`. -/
def fallbackName (s : String) (dflt : String) : String :=
  if jsTrim s = "" then dflt else jsTrim s

/-- Embeds `persistResultSafe(game, result)`: the database calls it issues
(fire-and-forget; failures are swallowed). -/
def persistResultSafe (g : Game) (res : RValue) : List PersistCall :=
  let nameX := fallbackName g.playerX.name "Jogador_X"
  let nameO := fallbackName g.playerO.name "Jogador_O"
  match res with
  | .draw => [.draw nameX, .draw nameO]
  | .mark .X => [.win nameX, .loss nameO]
  | .mark .O => [.win nameO, .loss nameX]

/-- One row of the `players` table (the `games` and `score` columns are
generated from these three counters by the schema). -/
structure StatsRow where
  name : String
  wins : Nat
  losses : Nat
  draws : Nat
deriving DecidableEq, Repr

/-- The `players` table, keyed by `name` (primary key, hence unique). -/
abbrev DB := List (String × StatsRow)

/-- Embeds `SELECT ... WHERE name = k LIMIT 1`. -/
def dbGet (db : DB) (k : String) : Option StatsRow :=
  (db.find? (fun e => e.1 == k)).map (fun e => e.2)

/-- Embeds `normalizeName`: `(name ?? '').trim().slice(0, 64)` from `db.ts`. -/
def normalizeName (name : String) : String :=
  jsSlice (jsTrim name) 64

/-- Embeds `INSERT ... ON DUPLICATE KEY UPDATE wins = wins + 1` under the
normalized name, dropped when the normalized name is blank. -/
def addWin (db : DB) (name : String) : DB :=
  let n := normalizeName name
  if n = "" then db
  else match dbGet db n with
    | some row => db.map (fun e => if e.1 == n then (n, { row with wins := row.wins + 1 }) else e)
    | none => db ++ [(n, ⟨n, 1, 0, 0⟩)]

/-- Embeds `INSERT ... ON DUPLICATE KEY UPDATE losses = losses + 1`, with the
same blank-name guard. -/
def addLoss (db : DB) (name : String) : DB :=
  let n := normalizeName name
  if n = "" then db
  else match dbGet db n with
    | some row => db.map (fun e => if e.1 == n then (n, { row with losses := row.losses + 1 }) else e)
    | none => db ++ [(n, ⟨n, 0, 1, 0⟩)]

/-- Embeds `INSERT ... ON DUPLICATE KEY UPDATE draws = draws + 1`, with the
same blank-name guard. -/
def addDraw (db : DB) (name : String) : DB :=
  let n := normalizeName name
  if n = "" then db
  else match dbGet db n with
    | some row => db.map (fun e => if e.1 == n then (n, { row with draws := row.draws + 1 }) else e)
    | none => db ++ [(n, ⟨n, 0, 0, 1⟩)]

/-- Embeds `getPlayerStats`: read-only lookup, `null` on blank names. -/
def getPlayerStats (db : DB) (name : String) : Option StatsRow :=
  let n := normalizeName name
  if n = "" then none else dbGet db n

/-- Embeds `ensurePlayerStats`: `null` on blank names, otherwise insert-if-absent
then read back. -/
def ensurePlayerStats (db : DB) (name : String) : DB × Option StatsRow :=
  let n := normalizeName name
  if n = "" then (db, none)
  else
    let db2 := match dbGet db n with
      | some _ => db
      | none => db ++ [(n, ⟨n, 0, 0, 0⟩)]
    (db2, getPlayerStats db2 n)

/-- The `Player` object built by the `join` handler:
`{ id: socket.id, name: (name || socket.id), mark: 'X', socket }` —
the name is used verbatim, defaulting to the socket id only when the
payload name is absent or the empty string (falsy). -/
def mkJoinPlayer (sid : String) (name : Option String) : Player :=
  { id := sid
    name := match name with
      | some s => if s = "" then sid else s
      | none => sid
    mark := Mark.X
    gameId := none }

/-- Embeds `waitingQueue.push(player)` — an unconditional append. -/
def enqueue (queue : List Player) (p : Player) : List Player :=
  queue ++ [p]

/-- Result of `startMatch`: updated registry, the created game, the two
updated player records, and the emissions. -/
structure StartResult where
  games : Registry
  game : Game
  pX : Player
  pO : Player
  events : List OutEvent
deriving Repr

/-- Embeds `startMatch(p1, p2)` with the random draw made explicit:
`coin = true` models `Math.random() < 0.5`, in which case `p1` becomes X. -/
def startMatch (games : Registry) (p1 p2 : Player) (coin : Bool) : StartResult :=
  let gameId := "g_" ++ jsSlice p1.id 5 ++ "_" ++ jsSlice p2.id 5
  let xBase := if coin then p1 else p2
  let oBase := if coin then p2 else p1
  let pX : Player := { xBase with mark := Mark.X, gameId := some gameId }
  let pO : Player := { oBase with mark := Mark.O, gameId := some gameId }
  let game : Game :=
    { id := gameId, board := List.replicate 9 none,
      playerX := pX, playerO := pO, turn := Mark.X, finished := false }
  { games := mapSet games gameId game
    game := game
    pX := pX
    pO := pO
    events :=
      [OutEvent.matchStarted pX.id gameId Mark.X pO.name,
       OutEvent.matchStarted pO.id gameId Mark.O pX.name,
       OutEvent.state pX.id gameId game.board game.turn,
       OutEvent.state pO.id gameId game.board game.turn] }

/-- Result of the `join` handler. -/
structure JoinResult where
  db : DB
  queue : List Player
  games : Registry
  events : List OutEvent
  persist : List PersistCall
deriving Repr

/-- The `socket.on('join')` handler of the primary server: build the
player, `ensurePlayerStats`, emit `profile`, push onto the queue, emit
`waiting`, then pair the two front entries when the queue holds at least
two. -/
def joinHandler (db : DB) (queue : List Player) (games : Registry)
    (sid : String) (name : Option String) (coin : Bool) : JoinResult :=
  let player := mkJoinPlayer sid name
  let er := ensurePlayerStats db player.name
  let preEvents := [OutEvent.profile sid player.name er.2.isSome, OutEvent.waiting sid]
  let queue2 := enqueue queue player
  -- `if (waitingQueue.length >= 2) { shift; shift; startMatch }`
  match queue2 with
  | p1 :: p2 :: rest =>
    let s := startMatch games p1 p2 coin
    { db := er.1, queue := rest, games := s.games,
      events := preEvents ++ s.events, persist := [PersistCall.ensure player.name] }
  | q => { db := er.1, queue := q, games := games,
           events := preEvents, persist := [PersistCall.ensure player.name] }

/-- Result of the `move` handler.  `finalGame` is the value of the looked-up
`Game` object after the handler ran (the object is mutated in place in the
source, so it exists independently of whether it is still registered);
`none` when the lookup failed. -/
structure MoveResult where
  games : Registry
  finalGame : Option Game
  events : List OutEvent
  persist : List PersistCall
deriving Repr

/-- The `socket.on('move')` handler of the primary server.  `player` is the
connection-local variable set by `join` (`none` before any join). -/
def moveHandler (games : Registry) (player : Option Player)
    (gameId : String) (index : Int) : MoveResult :=
  match mapGet games gameId with
  | none => ⟨games, none, [], []⟩
  | some game =>
    if game.finished then ⟨games, some game, [], []⟩
    else
      match player with
      | none => ⟨games, some game, [], []⟩
      | some p =>
        if p.gameId ≠ some gameId then ⟨games, some game, [], []⟩
        else
          let mark := p.mark
          if game.turn ≠ mark then
            ⟨games, some game, [OutEvent.errorMsg p.id "Não é sua vez."], []⟩
          else if index < 0 ∨ index > 8 then
            ⟨games, some game, [OutEvent.errorMsg p.id "Posição inválida."], []⟩
          else if boardAt game.board index.toNat ≠ none then
            ⟨games, some game, [OutEvent.errorMsg p.id "Casa ocupada."], []⟩
          else
            let board2 := game.board.set index.toNat (some mark)
            let turn2 := mark.other
            let game2 : Game := { game with board := board2, turn := turn2 }
            let stateEvents :=
              [OutEvent.state game.playerX.id game.id board2 turn2,
               OutEvent.state game.playerO.id game.id board2 turn2]
            match checkWinner board2 with
            | none => ⟨mapSet games gameId game2, some game2, stateEvents, []⟩
            | some res =>
              let game3 : Game := { game2 with finished := true }
              ⟨mapDelete (mapSet games gameId game3) game3.id, some game3,
               stateEvents ++
                 [OutEvent.gameOver game.playerX.id game.id res,
                  OutEvent.gameOver game.playerO.id game.id res],
               persistResultSafe game3 res⟩

/-- Embeds `waitingQueue.findIndex(p => p.id === socket.id)` followed by
`splice(idx, 1)`: remove the first entry with the given id, if any. -/
def removeFirstById : List Player → String → List Player
| [], _ => []
| p :: rest, sid => if p.id = sid then rest else p :: removeFirstById rest sid

/-- Result of a `disconnect` handler. -/
structure DisconnectResult where
  queue : List Player
  games : Registry
  events : List OutEvent
  persist : List PersistCall
deriving Repr

/-- The `socket.on('disconnect')` handler of the primary server: drop the
first queue entry for the socket, then forfeit the first registered game
containing the socket (iteration breaks after it): the other player wins,
receives the only `gameOver`, and the win/loss pair is persisted. -/
def disconnectHandler (queue : List Player) (games : Registry) (sid : String) :
    DisconnectResult :=
  let queue2 := removeFirstById queue sid
  match games.find? (fun e => e.2.playerX.id == sid || e.2.playerO.id == sid) with
  | none => ⟨queue2, games, [], []⟩
  | some e =>
    let g := e.2
    let isX := g.playerX.id = sid
    let winnerMark : Mark := if isX then Mark.O else Mark.X
    let winner : Player := if isX then g.playerO else g.playerX
    let persist :=
      if winnerMark = Mark.X then
        [PersistCall.win g.playerX.name, PersistCall.loss g.playerO.name]
      else
        [PersistCall.win g.playerO.name, PersistCall.loss g.playerX.name]
    ⟨queue2, mapDelete (mapSet games e.1 { g with finished := true }) g.id,
     [OutEvent.gameOver winner.id g.id (RValue.mark winnerMark)], persist⟩

/-- The `socket.on('disconnect')` handler of the second server version in
the sources: same queue and registry effects, but the remaining player is
sent `gameOver` with result `'draw'` and nothing is persisted. -/
def disconnectHandlerV2 (queue : List Player) (games : Registry) (sid : String) :
    DisconnectResult :=
  let queue2 := removeFirstById queue sid
  match games.find? (fun e => e.2.playerX.id == sid || e.2.playerO.id == sid) with
  | none => ⟨queue2, games, [], []⟩
  | some e =>
    let g := e.2
    let other := if g.playerX.id = sid then g.playerO else g.playerX
    ⟨queue2, mapDelete (mapSet games e.1 { g with finished := true }) g.id,
     [OutEvent.gameOver other.id g.id RValue.draw], []⟩

/-- The sender is one of the two registered players of the game. -/
def isParticipant (p : Player) (g : Game) : Prop :=
  g.playerX.id = p.id ∨ g.playerO.id = p.id

instance (p : Player) (g : Game) : Decidable (isParticipant p g) := by
  unfold isParticipant
  infer_instance

/-- The three cells of a winning triple all hold mark `m`. -/
def lineFilled (board : List Cell) (m : Mark) (l : Nat × Nat × Nat) : Prop :=
  boardAt board l.1 = some m ∧ boardAt board l.2.1 = some m ∧ boardAt board l.2.2 = some m

/-- Some one of the eight winning triples is completed by mark `m`. -/
def hasWinLine (board : List Cell) (m : Mark) : Prop :=
  ∃ l ∈ winLines, lineFilled board m l

instance (board : List Cell) (m : Mark) (l : Nat × Nat × Nat) :
    Decidable (lineFilled board m l) := by
  unfold lineFilled
  infer_instance

instance (board : List Cell) (m : Mark) : Decidable (hasWinLine board m) := by
  unfold hasWinLine
  infer_instance

/-- Is the event a `gameOver` emission? -/
def isGameOverEvent : OutEvent → Bool
| .gameOver _ _ _ => true
| _ => false

/-! ## Helper lemmas about the registry and queue models -/

theorem mapGet_cons (e : String × Game) (m : Registry) (k : String) :
    mapGet (e :: m) k = if e.1 == k then some e.2 else mapGet m k := by
  unfold mapGet
  by_cases h : (e.1 == k) = true
  · rw [List.find?_cons_of_pos m h, if_pos h]
    rfl
  · rw [List.find?_cons_of_neg m h, if_neg h]

theorem mapGet_mapSet_self (m : Registry) (k : String) (v : Game) :
    mapGet (mapSet m k v) k = some v := by
  induction m with
  | nil => simp [mapGet, mapSet]
  | cons e rest ih =>
    unfold mapSet
    by_cases he : (e.1 == k) = true
    · have hany : ((e :: rest).any (fun x => x.1 == k)) = true := by
        simp [List.any_cons, he]
      rw [if_pos hany]
      simp only [List.map_cons]
      rw [if_pos he, mapGet_cons]
      simp
    · have h1 : ((e :: rest).any (fun x => x.1 == k)) = rest.any (fun x => x.1 == k) := by
        simp only [List.any_cons]
        simp only [Bool.not_eq_true] at he
        rw [he, Bool.false_or]
      unfold mapSet at ih
      by_cases hr : rest.any (fun x => x.1 == k) = true
      · rw [if_pos (h1.trans hr)]
        simp only [List.map_cons]
        rw [if_neg he, mapGet_cons, if_neg he]
        rw [if_pos hr] at ih
        exact ih
      · rw [if_neg (fun hc => hr (h1.symm.trans hc)), List.cons_append, mapGet_cons,
          if_neg he]
        rw [if_neg hr] at ih
        exact ih

theorem mapGet_mapDelete_self (m : Registry) (k : String) :
    mapGet (mapDelete m k) k = none := by
  induction m with
  | nil => rfl
  | cons e rest ih =>
    unfold mapDelete
    by_cases he : (e.1 == k) = true
    · rw [List.filter_cons_of_neg (by simp [he])]
      exact ih
    · rw [List.filter_cons_of_pos (by simp [he])]
      rw [mapGet_cons, if_neg he]
      exact ih

theorem find?_pre_cons {α : Type} (p : α → Bool) (pre post : List α) (x : α)
    (hpre : ∀ e ∈ pre, p e = false) (hx : p x = true) :
    (pre ++ x :: post).find? p = some x := by
  induction pre with
  | nil => simp [List.find?_cons_of_pos _ hx]
  | cons a rest ih =>
    rw [List.cons_append, List.find?_cons_of_neg _ (by simp [hpre a (by simp)])]
    exact ih (fun e he => hpre e (by simp [he]))

theorem map_noKey_id (l : Registry) (k : String) (v : Game)
    (h : ∀ e ∈ l, (e.1 == k) = false) :
    l.map (fun e => if e.1 == k then (k, v) else e) = l := by
  induction l with
  | nil => rfl
  | cons a rest ih =>
    simp only [List.map_cons]
    rw [if_neg (by simp [h a (List.mem_cons_self a rest)]),
        ih (fun e he => h e (by simp [he]))]

theorem filter_noKey_id (l : Registry) (k : String)
    (h : ∀ e ∈ l, (e.1 == k) = false) :
    l.filter (fun e => !(e.1 == k)) = l := by
  induction l with
  | nil => rfl
  | cons a rest ih =>
    rw [List.filter_cons_of_pos (by simp [h a (List.mem_cons_self a rest)])]
    rw [ih (fun e he => h e (by simp [he]))]

theorem mapDelete_mapSet_decomp (pre post : Registry) (k : String) (g v : Game)
    (hpre : ∀ e ∈ pre, e.1 ≠ k) (hpost : ∀ e ∈ post, e.1 ≠ k) :
    mapDelete (mapSet (pre ++ (k, g) :: post) k v) k = pre ++ post := by
  have hpre2 : ∀ e ∈ pre, (e.1 == k) = false := by
    intro e he
    simp [hpre e he]
  have hpost2 : ∀ e ∈ post, (e.1 == k) = false := by
    intro e he
    simp [hpost e he]
  unfold mapSet
  rw [if_pos (by simp [List.any_append])]
  rw [List.map_append, List.map_cons]
  rw [map_noKey_id pre k v hpre2, map_noKey_id post k v hpost2]
  rw [if_pos (by simp)]
  unfold mapDelete
  rw [List.filter_append, List.filter_cons_of_neg (by simp)]
  rw [filter_noKey_id pre k hpre2, filter_noKey_id post k hpost2]

theorem removeFirstById_not_mem (q : List Player) (sid : String)
    (h : ∀ p ∈ q, p.id ≠ sid) : removeFirstById q sid = q := by
  induction q with
  | nil => rfl
  | cons a rest ih =>
    unfold removeFirstById
    rw [if_neg (h a (List.mem_cons_self a rest))]
    rw [ih (fun p hp => h p (by simp [hp]))]

theorem removeFirstById_decomp (l r : List Player) (x : Player) (sid : String)
    (hl : ∀ p ∈ l, p.id ≠ sid) (hx : x.id = sid) :
    removeFirstById (l ++ x :: r) sid = l ++ r := by
  induction l with
  | nil => simp [removeFirstById, hx]
  | cons a rest ih =>
    rw [List.cons_append]
    unfold removeFirstById
    rw [if_neg (hl a (List.mem_cons_self a rest))]
    rw [ih (fun p hp => hl p (by simp [hp]))]
    rfl

theorem moveHandler_absent (games : Registry) (player : Option Player)
    (gid : String) (i : Int) (h : mapGet games gid = none) :
    moveHandler games player gid i = ⟨games, none, [], []⟩ := by
  unfold moveHandler
  rw [h]

theorem moveHandler_finished (games : Registry) (player : Option Player)
    (gid : String) (i : Int) (g : Game)
    (hg : mapGet games gid = some g) (hf : g.finished = true) :
    moveHandler games player gid i = ⟨games, some g, [], []⟩ := by
  unfold moveHandler
  rw [hg]
  simp [hf]

theorem getD_set_self (l : List Cell) (i : Nat) (a : Cell) (h : i < l.length) :
    (l.set i a).getD i none = a := by
  induction l generalizing i with
  | nil => simp at h
  | cons x xs ih =>
    cases i with
    | zero => simp
    | succ n =>
      have hs : (x :: xs).set (n + 1) a = x :: xs.set n a := rfl
      rw [hs, List.getD_cons_succ]
      exact ih n (by simpa using h)

theorem lineWinner_eq_some_iff (board : List Cell) (l : Nat × Nat × Nat) (m : Mark) :
    lineWinner board l = some m ↔ lineFilled board m l := by
  unfold lineWinner lineFilled
  cases ha : boardAt board l.1 with
  | none => simp
  | some m2 =>
    show (if boardAt board l.2.1 = some m2 ∧ boardAt board l.2.2 = some m2 then some m2
          else none) = some m ↔
        some m2 = some m ∧ boardAt board l.2.1 = some m ∧ boardAt board l.2.2 = some m
    by_cases hbc : boardAt board l.2.1 = some m2 ∧ boardAt board l.2.2 = some m2
    · rw [if_pos hbc]
      constructor
      · intro h
        have hm : m2 = m := by injection h
        subst hm
        exact ⟨rfl, hbc.1, hbc.2⟩
      · intro h
        exact h.1
    · rw [if_neg hbc]
      constructor
      · intro h
        simp at h
      · rintro ⟨h1, h2, h3⟩
        have hm : m2 = m := by injection h1
        subst hm
        exact absurd ⟨h2, h3⟩ hbc

theorem checkWinner_of_findSome?_some (board : List Cell) (m : Mark)
    (h : winLines.findSome? (lineWinner board) = some m) :
    checkWinner board = some (.mark m) := by
  unfold checkWinner
  rw [h]

theorem checkWinner_of_findSome?_none (board : List Cell)
    (h : winLines.findSome? (lineWinner board) = none) :
    checkWinner board = if board.all (fun c => c.isSome) then some .draw else none := by
  unfold checkWinner
  rw [h]

/-! ## Concrete fixtures used by witnesses and counterexamples -/

/-- The board `[X,X,X,_,_,_,_,_,_]`. -/
def boardRowX : List Cell :=
  [some Mark.X, some Mark.X, some Mark.X, none, none, none, none, none, none]

/-- A board on which both marks hold a completed row: row 0 is X, row 1 is O. -/
def boardTwoLines : List Cell :=
  [some Mark.X, some Mark.X, some Mark.X,
   some Mark.O, some Mark.O, some Mark.O, none, none, none]

/-! ## Claim theorems -/

/-- C2 counterexample: on the board whose first row is three Xs and whose
second row is three Os, line `(3,4,5)` holds three equal marks O, yet
`checkWinner` does not return Win(O) (it returns Win(X), the first line in
its fixed scan order), so the claim's universally quantified statement
fails on this 9-cell board. -/
theorem checkWinner_two_lines_cex :
    hasWinLine boardTwoLines Mark.O ∧
    checkWinner boardTwoLines ≠ some (RValue.mark Mark.O) := by
  decide

/-- C2 (amended): `checkWinner` returns Win of the mark of the first
completed line in its fixed scan order — in particular Win(m) whenever m
is the mark of a completed line and no other mark has one; it returns
Draw when no line is completed and every cell is occupied, Ongoing
(`none`) when no line is completed and some cell is empty, and Win(X) on
`[X,X,X,_,_,_,_,_,_]`. -/
theorem checkWinner_cases (board : List Cell) :
    (∀ m, checkWinner board = some (RValue.mark m) → hasWinLine board m) ∧
    (∀ m, hasWinLine board m → (∀ m2, hasWinLine board m2 → m2 = m) →
      checkWinner board = some (RValue.mark m)) ∧
    ((∀ m, ¬ hasWinLine board m) → (board.all fun c => c.isSome) = true →
      checkWinner board = some RValue.draw) ∧
    ((∀ m, ¬ hasWinLine board m) → (board.all fun c => c.isSome) = false →
      checkWinner board = none) ∧
    checkWinner boardRowX = some (RValue.mark Mark.X) := by
  refine ⟨?_, ?_, ?_, ?_, by decide⟩
  · intro m h
    cases hfs : winLines.findSome? (lineWinner board) with
    | none =>
      rw [checkWinner_of_findSome?_none board hfs] at h
      by_cases hall : (board.all fun c => c.isSome) = true
      · rw [if_pos hall] at h
        exact absurd h (by simp)
      · rw [if_neg hall] at h
        exact absurd h (by simp)
    | some m2 =>
      rw [checkWinner_of_findSome?_some board m2 hfs] at h
      have h1 : RValue.mark m2 = RValue.mark m := Option.some.inj h
      have hm : m2 = m := by injection h1
      subst hm
      obtain ⟨l, hl, hw⟩ := List.exists_of_findSome?_eq_some hfs
      exact ⟨l, hl, (lineWinner_eq_some_iff board l m2).mp hw⟩
  · intro m hm huniq
    cases hfs : winLines.findSome? (lineWinner board) with
    | none =>
      exfalso
      obtain ⟨l, hl, hfill⟩ := hm
      have hw : lineWinner board l = some m := (lineWinner_eq_some_iff board l m).mpr hfill
      have hnone : lineWinner board l = none := (List.findSome?_eq_none_iff.mp hfs) l hl
      rw [hw] at hnone
      exact absurd hnone (by simp)
    | some m2 =>
      obtain ⟨l, hl, hw⟩ := List.exists_of_findSome?_eq_some hfs
      have h2 : hasWinLine board m2 := ⟨l, hl, (lineWinner_eq_some_iff board l m2).mp hw⟩
      rw [checkWinner_of_findSome?_some board m2 hfs, huniq m2 h2]
  · intro hno hall
    have hfs : winLines.findSome? (lineWinner board) = none := by
      rw [List.findSome?_eq_none_iff]
      intro l hl
      cases hlw : lineWinner board l with
      | none => rfl
      | some m2 =>
        exact absurd ⟨l, hl, (lineWinner_eq_some_iff board l m2).mp hlw⟩ (hno m2)
    rw [checkWinner_of_findSome?_none board hfs, if_pos hall]
  · intro hno hall
    have hfs : winLines.findSome? (lineWinner board) = none := by
      rw [List.findSome?_eq_none_iff]
      intro l hl
      cases hlw : lineWinner board l with
      | none => rfl
      | some m2 =>
        exact absurd ⟨l, hl, (lineWinner_eq_some_iff board l m2).mp hlw⟩ (hno m2)
    rw [checkWinner_of_findSome?_none board hfs, if_neg (by simp [hall])]

/-- Witness for `checkWinner_cases`: its soundness conjunct applied to the
row-of-X board. -/
theorem checkWinner_cases_witness :
    hasWinLine boardRowX Mark.X ∧ checkWinner boardRowX = some (RValue.mark Mark.X) :=
  ⟨(checkWinner_cases boardRowX).1 Mark.X (by decide), by decide⟩

/-- C7: `startMatch` initializes a board of exactly 9 empty cells, sets
`turn` to X (the first-moving mark), registers the match in progress
(`finished = false`, present in the registry under its id), records the
match id on both participants, and gives the first-moving mark X to `p1`
exactly when the random draw lands one way (`coin = true`) and to `p2` on
the other outcome — so each participant receives the first-moving mark for
exactly one of the two outcomes of the draw. -/
theorem startMatch_spec (games : Registry) (p1 p2 : Player) (coin : Bool) :
    (startMatch games p1 p2 coin).game.board = List.replicate 9 none ∧
    (startMatch games p1 p2 coin).game.board.length = 9 ∧
    (startMatch games p1 p2 coin).game.turn = Mark.X ∧
    (startMatch games p1 p2 coin).game.finished = false ∧
    (startMatch games p1 p2 coin).game.playerX.mark = Mark.X ∧
    (startMatch games p1 p2 coin).game.playerO.mark = Mark.O ∧
    (startMatch games p1 p2 coin).game.playerX.gameId =
      some (startMatch games p1 p2 coin).game.id ∧
    (startMatch games p1 p2 coin).game.playerO.gameId =
      some (startMatch games p1 p2 coin).game.id ∧
    mapGet (startMatch games p1 p2 coin).games (startMatch games p1 p2 coin).game.id =
      some (startMatch games p1 p2 coin).game ∧
    (startMatch games p1 p2 coin).game.playerX.id = (if coin then p1 else p2).id ∧
    (startMatch games p1 p2 coin).game.playerO.id = (if coin then p2 else p1).id := by
  refine ⟨rfl, by simp [startMatch], rfl, rfl, rfl, rfl, rfl, rfl, ?_, rfl, rfl⟩
  exact mapGet_mapSet_self _ _ _

/-- C1: assuming the match is registered under `gid` with a 9-cell board,
and the registry invariant that the sender's recorded `gameId` points at
`gid` exactly when the sender is one of the match's two participants, an
inbound move is accepted — the sender's mark is written at the index and
`turn` flips to the other mark — precisely when the match is not finished,
the sender is a current participant, it is the sender's mark's turn, the
index lies in [0,8] and the target cell is empty; in every other case the
game object's board and `turn` are unchanged. -/
theorem move_accept_iff_legal
    (games : Registry) (g : Game) (p : Player) (gid : String) (index : Int)
    (hg : mapGet games gid = some g)
    (hlen : g.board.length = 9)
    (hpart : p.gameId = some gid ↔ isParticipant p g) :
    ((g.finished = false ∧ isParticipant p g ∧ g.turn = p.mark ∧
      0 ≤ index ∧ index ≤ 8 ∧ boardAt g.board index.toNat = none) →
      ∃ g2, (moveHandler games (some p) gid index).finalGame = some g2 ∧
        g2.board = g.board.set index.toNat (some p.mark) ∧
        boardAt g2.board index.toNat = some p.mark ∧
        g2.turn = p.mark.other) ∧
    (¬(g.finished = false ∧ isParticipant p g ∧ g.turn = p.mark ∧
      0 ≤ index ∧ index ≤ 8 ∧ boardAt g.board index.toNat = none) →
      ∃ g2, (moveHandler games (some p) gid index).finalGame = some g2 ∧
        g2.board = g.board ∧ g2.turn = g.turn) := by
  constructor
  · rintro ⟨hf, hpar, hturn, hge, hle, hempty⟩
    have hpg : p.gameId = some gid := hpart.mpr hpar
    have hlt : index.toNat < g.board.length := by
      rw [hlen]
      omega
    simp only [moveHandler, hg]
    split
    next hfin => exact absurd hfin (by simp [hf])
    next hfin =>
      split
      next hne => exact absurd hpg hne
      next hne =>
        split
        next hts => exact absurd hturn hts
        next hts =>
          split
          next hrange => exact absurd hrange (by omega)
          next hrange =>
            split
            next hocc => exact absurd hempty hocc
            next hocc =>
              split
              · exact ⟨_, rfl, rfl, getD_set_self g.board index.toNat (some p.mark) hlt, rfl⟩
              · exact ⟨_, rfl, rfl, getD_set_self g.board index.toNat (some p.mark) hlt, rfl⟩
  · intro hneg
    simp only [moveHandler, hg]
    split
    next hfin => exact ⟨g, rfl, rfl, rfl⟩
    next hfin =>
      split
      next hne => exact ⟨g, rfl, rfl, rfl⟩
      next hne =>
        have hpg : p.gameId = some gid := not_not.mp hne
        have hpar : isParticipant p g := hpart.mp hpg
        split
        next hts => exact ⟨g, rfl, rfl, rfl⟩
        next hts =>
          have hturn : g.turn = p.mark := not_not.mp hts
          split
          next hrange => exact ⟨g, rfl, rfl, rfl⟩
          next hrange =>
            split
            next hocc => exact ⟨g, rfl, rfl, rfl⟩
            next hocc =>
              exfalso
              have hempty : boardAt g.board index.toNat = none := not_not.mp hocc
              have hfin2 : g.finished = false := by simpa using hfin
              exact hneg ⟨hfin2, hpar, hturn, by omega, by omega, hempty⟩

/-- Fixture players and game for the move-handler witnesses. -/
def pA : Player := { id := "a", name := "Alice", mark := Mark.X, gameId := some "g1" }

def pB : Player := { id := "b", name := "Bob", mark := Mark.O, gameId := some "g1" }

def game1 : Game :=
  { id := "g1", board := List.replicate 9 none, playerX := pA, playerO := pB,
    turn := Mark.X, finished := false }

/-- Witness for `move_accept_iff_legal`: the fresh match `game1`, sender
`pA` (X, whose turn it is), index 4. -/
theorem move_accept_iff_legal_witness :
    (mapGet [("g1", game1)] "g1" = some game1 ∧
     game1.board.length = 9 ∧
     (pA.gameId = some "g1" ↔ isParticipant pA game1)) ∧
    (((game1.finished = false ∧ isParticipant pA game1 ∧ game1.turn = pA.mark ∧
       0 ≤ (4 : Int) ∧ (4 : Int) ≤ 8 ∧ boardAt game1.board (4 : Int).toNat = none) →
       ∃ g2, (moveHandler [("g1", game1)] (some pA) "g1" 4).finalGame = some g2 ∧
         g2.board = game1.board.set (4 : Int).toNat (some pA.mark) ∧
         boardAt g2.board (4 : Int).toNat = some pA.mark ∧
         g2.turn = pA.mark.other) ∧
     (¬(game1.finished = false ∧ isParticipant pA game1 ∧ game1.turn = pA.mark ∧
       0 ≤ (4 : Int) ∧ (4 : Int) ≤ 8 ∧ boardAt game1.board (4 : Int).toNat = none) →
       ∃ g2, (moveHandler [("g1", game1)] (some pA) "g1" 4).finalGame = some g2 ∧
         g2.board = game1.board ∧ g2.turn = game1.turn)) :=
  ⟨⟨by decide, by decide, by decide⟩,
   move_accept_iff_legal [("g1", game1)] game1 pA "g1" 4 (by decide) (by decide) (by decide)⟩

/-- C6: terminal finality.  (1) A `move` referencing a match id that is
absent from the registry or whose game is finished returns the registry
unchanged, the looked-up game object unchanged, and emits no events and no
persistence calls.  (2) After an accepted decisive move (one whose updated
board evaluates to a result), the match id is gone from the registry and
every subsequent `move` referencing it is exactly such a no-op.  (3) The
same holds after a forfeit: the match the disconnect handler finds is
removed and subsequent `move`s referencing it are no-ops. -/
theorem terminal_finality
    (games : Registry) (player p2 : Option Player) (gid : String) (i1 i2 : Int)
    (queue : List Player) (sid : String) :
    ((mapGet games gid = none ∨ (∃ g, mapGet games gid = some g ∧ g.finished = true)) →
      moveHandler games player gid i1 = ⟨games, mapGet games gid, [], []⟩) ∧
    (∀ g p r, mapGet games gid = some g → g.id = gid →
      g.finished = false → p.gameId = some gid → g.turn = p.mark →
      ¬(i1 < 0 ∨ i1 > 8) → boardAt g.board i1.toNat = none →
      checkWinner (g.board.set i1.toNat (some p.mark)) = some r →
      mapGet (moveHandler games (some p) gid i1).games gid = none ∧
      moveHandler (moveHandler games (some p) gid i1).games p2 gid i2 =
        ⟨(moveHandler games (some p) gid i1).games, none, [], []⟩) ∧
    (∀ gid2 g2,
      games.find? (fun e => e.2.playerX.id == sid || e.2.playerO.id == sid) =
        some (gid2, g2) →
      g2.id = gid2 →
      mapGet (disconnectHandler queue games sid).games gid2 = none ∧
      moveHandler (disconnectHandler queue games sid).games p2 gid2 i2 =
        ⟨(disconnectHandler queue games sid).games, none, [], []⟩) := by
  refine ⟨?_, ?_, ?_⟩
  · rintro (habs | ⟨g, hgget, hf⟩)
    · rw [habs]
      exact moveHandler_absent games player gid i1 habs
    · rw [hgget]
      exact moveHandler_finished games player gid i1 g hgget hf
  · intro g p r hgget hgid hf hpg hturn hrange hempty hcw
    subst hgid
    have hgone : mapGet (moveHandler games (some p) g.id i1).games g.id = none := by
      simp only [moveHandler, hgget]
      rw [if_neg (by simp [hf]), if_neg (fun hcon => hcon hpg),
          if_neg (fun hcon => hcon hturn), if_neg hrange,
          if_neg (fun hcon => hcon hempty), hcw]
      exact mapGet_mapDelete_self _ _
    exact ⟨hgone, moveHandler_absent _ _ _ _ hgone⟩
  · intro gid2 g2 hfind hid
    subst hid
    have hgone : mapGet (disconnectHandler queue games sid).games g2.id = none := by
      simp only [disconnectHandler, hfind]
      exact mapGet_mapDelete_self _ _
    exact ⟨hgone, moveHandler_absent _ _ _ _ hgone⟩

/-- A match one X-move away from a decided result (X holds cells 0 and 1,
O holds 3 and 4, X to move). -/
def gameDec : Game :=
  { id := "g1",
    board := [some Mark.X, some Mark.X, none, some Mark.O, some Mark.O,
              none, none, none, none],
    playerX := pA, playerO := pB, turn := Mark.X, finished := false }

/-- An already-finished match still sitting in the registry. -/
def gameFin : Game :=
  { id := "gF", board := List.replicate 9 none, playerX := pA, playerO := pB,
    turn := Mark.X, finished := true }

/-- Witness for `terminal_finality`: a finished registered match makes
`move` a no-op; a decisive move by `pA` on `gameDec` deletes the id; a
forfeit by disconnecting `"a"` deletes the id. -/
theorem terminal_finality_witness :
    ((∃ g, mapGet [("gF", gameFin)] "gF" = some g ∧ g.finished = true) ∧
      moveHandler [("gF", gameFin)] none "gF" 0 =
        ⟨[("gF", gameFin)], mapGet [("gF", gameFin)] "gF", [], []⟩) ∧
    (checkWinner (gameDec.board.set (2 : Int).toNat (some pA.mark)) =
        some (RValue.mark Mark.X) ∧
      mapGet (moveHandler [("g1", gameDec)] (some pA) "g1" 2).games "g1" = none) ∧
    ([("g1", gameDec)].find?
        (fun e => e.2.playerX.id == "a" || e.2.playerO.id == "a") =
        some ("g1", gameDec) ∧
      mapGet (disconnectHandler [] [("g1", gameDec)] "a").games "g1" = none) :=
  ⟨⟨⟨gameFin, by decide, by decide⟩,
    (terminal_finality [("gF", gameFin)] none none "gF" 0 0 [] "a").1
      (Or.inr ⟨gameFin, by decide, by decide⟩)⟩,
   ⟨by decide,
    ((terminal_finality [("g1", gameDec)] (some pA) none "g1" 2 0 [] "a").2.1 gameDec pA
      (RValue.mark Mark.X) (by decide) (by decide) (by decide) (by decide) (by decide)
      (by decide) (by decide) (by decide)).1⟩,
   ⟨by decide,
    ((terminal_finality [("g1", gameDec)] (some pA) none "g1" 2 0 [] "a").2.2 "g1" gameDec
      (by decide) (by decide)).1⟩⟩

/-- C3 counterexample: in the second server version present in the
sources, disconnecting `"a"` while `game1` is in progress sends the
remaining participant `"b"` a single `gameOver` whose result is `draw` —
not the remaining participant's own mark O — and invokes no persistence
call at all, so the claim fails on that handler. -/
theorem disconnect_v2_draw_cex :
    (disconnectHandlerV2 [] [("g1", game1)] "a").events =
      [OutEvent.gameOver "b" "g1" RValue.draw] ∧
    RValue.draw ≠ RValue.mark game1.playerO.mark ∧
    (disconnectHandlerV2 [] [("g1", game1)] "a").persist = [] := by
  decide

/-- C3 (amended): in the primary server's disconnect handler, when the
disconnecting socket belongs to a registered match (the first such match
in registry order, with well-formed key and marks), the remaining
participant receives exactly one `gameOver` carrying the remaining
participant's own mark, the match is removed from the registry, and the
persistence collaborator is invoked with a win for the remaining
participant's name and a loss for the disconnected participant's name.
The second server version in the sources instead reports `draw` and
persists nothing. -/
theorem disconnect_forfeit
    (queue : List Player) (pre post : Registry) (gid : String) (g : Game) (sid : String)
    (hpre : ∀ e ∈ pre, e.2.playerX.id ≠ sid ∧ e.2.playerO.id ≠ sid)
    (hin : g.playerX.id = sid ∨ g.playerO.id = sid)
    (hkey : g.id = gid)
    (hprek : ∀ e ∈ pre, e.1 ≠ gid)
    (hpostk : ∀ e ∈ post, e.1 ≠ gid)
    (hmX : g.playerX.mark = Mark.X) (hmO : g.playerO.mark = Mark.O) :
    ∃ winner loser : Player,
      ((g.playerX.id = sid ∧ winner = g.playerO ∧ loser = g.playerX) ∨
       (g.playerX.id ≠ sid ∧ winner = g.playerX ∧ loser = g.playerO)) ∧
      (disconnectHandler queue (pre ++ (gid, g) :: post) sid).events =
        [OutEvent.gameOver winner.id g.id (RValue.mark winner.mark)] ∧
      (disconnectHandler queue (pre ++ (gid, g) :: post) sid).games = pre ++ post ∧
      (disconnectHandler queue (pre ++ (gid, g) :: post) sid).persist =
        [PersistCall.win winner.name, PersistCall.loss loser.name] := by
  subst hkey
  have hfind : (pre ++ (g.id, g) :: post).find?
      (fun e => e.2.playerX.id == sid || e.2.playerO.id == sid) = some (g.id, g) := by
    apply find?_pre_cons
    · intro e he
      obtain ⟨h1, h2⟩ := hpre e he
      simp [h1, h2]
    · rcases hin with h | h <;> simp [h]
  by_cases hX : g.playerX.id = sid
  · refine ⟨g.playerO, g.playerX, Or.inl ⟨hX, rfl, rfl⟩, ?_, ?_, ?_⟩
    · simp only [disconnectHandler, hfind]
      simp [hX, hmO]
    · simp only [disconnectHandler, hfind]
      exact mapDelete_mapSet_decomp pre post g.id g _ hprek hpostk
    · simp only [disconnectHandler, hfind]
      simp [hX]
  · refine ⟨g.playerX, g.playerO, Or.inr ⟨hX, rfl, rfl⟩, ?_, ?_, ?_⟩
    · simp only [disconnectHandler, hfind]
      simp [hX, hmX]
    · simp only [disconnectHandler, hfind]
      exact mapDelete_mapSet_decomp pre post g.id g _ hprek hpostk
    · simp only [disconnectHandler, hfind]
      simp [hX]

/-- Witness for `disconnect_forfeit`: `game1` registered alone, player
`"a"` (X) disconnects, `"b"` (O) wins. -/
theorem disconnect_forfeit_witness :
    (game1.playerX.id = "a" ∨ game1.playerO.id = "a") ∧
    (∃ winner loser : Player,
      ((game1.playerX.id = "a" ∧ winner = game1.playerO ∧ loser = game1.playerX) ∨
       (game1.playerX.id ≠ "a" ∧ winner = game1.playerX ∧ loser = game1.playerO)) ∧
      (disconnectHandler [] ([] ++ ("g1", game1) :: []) "a").events =
        [OutEvent.gameOver winner.id game1.id (RValue.mark winner.mark)] ∧
      (disconnectHandler [] ([] ++ ("g1", game1) :: []) "a").games = [] ++ [] ∧
      (disconnectHandler [] ([] ++ ("g1", game1) :: []) "a").persist =
        [PersistCall.win winner.name, PersistCall.loss loser.name]) :=
  ⟨Or.inl rfl,
   disconnect_forfeit [] [] [] "g1" game1 "a"
     (by intro e he; cases he) (Or.inl rfl) rfl
     (by intro e he; cases he) (by intro e he; cases he) rfl rfl⟩

theorem disconnectHandler_queue (queue : List Player) (games : Registry) (sid : String) :
    (disconnectHandler queue games sid).queue = removeFirstById queue sid := by
  unfold disconnectHandler
  cases games.find? (fun e => e.2.playerX.id == sid || e.2.playerO.id == sid) <;> rfl

/-- C10: a disconnect removes at most one queue entry — the first whose id
matches, leaving every other entry including later ones with the same id —
and forfeits at most one registered match — the first in insertion order
containing the id, leaving every other match (before or after it, even
ones also containing the id) unchanged; when nothing matches, queue and
registry are returned untouched with no events and no persistence. -/
theorem disconnect_frame (sid : String) :
    (∀ queue games, (∀ p ∈ queue, p.id ≠ sid) →
      (disconnectHandler queue games sid).queue = queue) ∧
    (∀ (l r : List Player) (x : Player) games,
      (∀ p ∈ l, p.id ≠ sid) → x.id = sid →
      (disconnectHandler (l ++ x :: r) games sid).queue = l ++ r) ∧
    (∀ queue games,
      (∀ e ∈ games, e.2.playerX.id ≠ sid ∧ e.2.playerO.id ≠ sid) →
      (disconnectHandler queue games sid).games = games ∧
      (disconnectHandler queue games sid).events = [] ∧
      (disconnectHandler queue games sid).persist = []) ∧
    (∀ (queue : List Player) (pre post : Registry) (gid : String) (g : Game),
      (∀ e ∈ pre, e.2.playerX.id ≠ sid ∧ e.2.playerO.id ≠ sid) →
      (g.playerX.id = sid ∨ g.playerO.id = sid) → g.id = gid →
      (∀ e ∈ pre, e.1 ≠ gid) → (∀ e ∈ post, e.1 ≠ gid) →
      (disconnectHandler queue (pre ++ (gid, g) :: post) sid).games = pre ++ post) := by
  refine ⟨?_, ?_, ?_, ?_⟩
  · intro queue games h
    rw [disconnectHandler_queue]
    exact removeFirstById_not_mem queue sid h
  · intro l r x games hl hx
    rw [disconnectHandler_queue]
    exact removeFirstById_decomp l r x sid hl hx
  · intro queue games h
    have hfind : games.find?
        (fun e => e.2.playerX.id == sid || e.2.playerO.id == sid) = none := by
      rw [List.find?_eq_none]
      intro e he
      obtain ⟨h1, h2⟩ := h e he
      simp [h1, h2]
    unfold disconnectHandler
    rw [hfind]
    exact ⟨rfl, rfl, rfl⟩
  · intro queue pre post gid g hpre hin hkey hprek hpostk
    subst hkey
    have hfind : (pre ++ (g.id, g) :: post).find?
        (fun e => e.2.playerX.id == sid || e.2.playerO.id == sid) = some (g.id, g) := by
      apply find?_pre_cons
      · intro e he
        obtain ⟨h1, h2⟩ := hpre e he
        simp [h1, h2]
      · rcases hin with h | h <;> simp [h]
    simp only [disconnectHandler, hfind]
    exact mapDelete_mapSet_decomp pre post g.id g _ hprek hpostk

/-- Fixture players: a waiting queue with two distinct entries sharing the
id `"a"` around one entry `"b"`, and two further matches flanking `game1`,
the later of which also contains the id `"a"`. -/
def qB : Player := { id := "b", name := "B", mark := Mark.X, gameId := none }

def qA1 : Player := { id := "a", name := "A1", mark := Mark.X, gameId := none }

def qA2 : Player := { id := "a", name := "A2", mark := Mark.X, gameId := none }

def pC : Player := { id := "c", name := "C", mark := Mark.X, gameId := some "g0" }

def pD : Player := { id := "d", name := "D", mark := Mark.O, gameId := some "g0" }

def gOther : Game :=
  { id := "g0", board := List.replicate 9 none, playerX := pC, playerO := pD,
    turn := Mark.X, finished := false }

def pE : Player := { id := "e", name := "E", mark := Mark.O, gameId := some "g2" }

def pA2g : Player := { id := "a", name := "A", mark := Mark.X, gameId := some "g2" }

def gAlso : Game :=
  { id := "g2", board := List.replicate 9 none, playerX := pA2g, playerO := pE,
    turn := Mark.X, finished := false }

/-- Witness for `disconnect_frame`: only the first `"a"` queue entry is
removed (the later one survives); a registry with no match for `"a"` is
untouched; in a three-match registry only the first match containing
`"a"` is removed, even though a later one also contains `"a"`. -/
theorem disconnect_frame_witness :
    (qB.id ≠ "a" ∧ qA1.id = "a" ∧
      (disconnectHandler ([qB] ++ qA1 :: [qA2]) [] "a").queue = [qB] ++ [qA2]) ∧
    (disconnectHandler [] [("g0", gOther)] "a").games = [("g0", gOther)] ∧
    (disconnectHandler []
        ([("g0", gOther)] ++ ("g1", game1) :: [("g2", gAlso)]) "a").games =
      [("g0", gOther)] ++ [("g2", gAlso)] :=
  ⟨⟨by decide, by decide,
    (disconnect_frame "a").2.1 [qB] [qA2] qA1 [] (by decide) (by decide)⟩,
   ((disconnect_frame "a").2.2.1 [] [("g0", gOther)] (by decide)).1,
   (disconnect_frame "a").2.2.2 [] [("g0", gOther)] [("g2", gAlso)] "g1" game1
     (by decide) (by decide) (by decide) (by decide) (by decide)⟩

/-- C4 counterexample: the `join` handler's enqueue is a bare push with no
duplicate check.  Enqueueing a second participant with identity `"a"` into
a queue already holding one leaves two entries for `"a"`, not one; and two
join events for the same identity on an empty queue do not leave a single
queue entry — they immediately pair the identity with itself (the second
push reaches length 2 and a self-match `"a"` vs `"a"` starts). -/
theorem enqueue_duplicate_cex :
    (enqueue [qA1] qA2).countP (fun x => x.id == "a") = 2 ∧
    (enqueue [qA1] qA2).countP (fun x => x.id == "a") ≠ 1 ∧
    (joinHandler (joinHandler [] [] [] "a" (some "Al") true).db
        (joinHandler [] [] [] "a" (some "Al") true).queue
        (joinHandler [] [] [] "a" (some "Al") true).games
        "a" (some "Al") true).queue = [] ∧
    ((joinHandler (joinHandler [] [] [] "a" (some "Al") true).db
        (joinHandler [] [] [] "a" (some "Al") true).queue
        (joinHandler [] [] [] "a" (some "Al") true).games
        "a" (some "Al") true).games.map
      (fun e => (e.2.playerX.id, e.2.playerO.id))) = [("a", "a")] := by
  decide

/-- C4 (amended): `enqueue` appends to the tail unconditionally — it is
not idempotent: enqueueing a participant always increments the number of
queue entries carrying that participant's identity by one, also when the
identity is already present. -/
theorem enqueue_appends (q : List Player) (p : Player) :
    enqueue q p = q ++ [p] ∧
    (enqueue q p).countP (fun x => x.id == p.id) =
      q.countP (fun x => x.id == p.id) + 1 := by
  refine ⟨rfl, ?_⟩
  unfold enqueue
  rw [List.countP_append]
  simp [List.countP_cons]

/-- C5: FIFO pairing.  If pushing the joiner brings the queue to two or
more entries, the `join` handler removes exactly the two front (longest
waiting) entries and starts a match between them in queue order, leaving
the rest untouched; if the queue stays below two entries, it is left as
the push produced it, no match starts and the registry is unchanged.
Consequently joins in order A, B, C, D (fixture below) produce first the
match {A,B} and then the match {C,D}. -/
theorem fifo_pairing
    (db : DB) (queue : List Player) (games : Registry)
    (sid : String) (name : Option String) (coin : Bool) :
    (∀ p1 p2 rest, queue ++ [mkJoinPlayer sid name] = p1 :: p2 :: rest →
      (joinHandler db queue games sid name coin).queue = rest ∧
      (joinHandler db queue games sid name coin).games =
        (startMatch games p1 p2 coin).games ∧
      (joinHandler db queue games sid name coin).events =
        [OutEvent.profile sid (mkJoinPlayer sid name).name
           (ensurePlayerStats db (mkJoinPlayer sid name).name).2.isSome,
         OutEvent.waiting sid] ++ (startMatch games p1 p2 coin).events) ∧
    (queue = [] →
      (joinHandler db queue games sid name coin).queue = [mkJoinPlayer sid name] ∧
      (joinHandler db queue games sid name coin).games = games ∧
      (joinHandler db queue games sid name coin).events =
        [OutEvent.profile sid (mkJoinPlayer sid name).name
           (ensurePlayerStats db (mkJoinPlayer sid name).name).2.isSome,
         OutEvent.waiting sid]) := by
  constructor
  · intro p1 p2 rest h
    simp only [joinHandler, enqueue]
    rw [h]
    exact ⟨rfl, rfl, rfl⟩
  · intro h
    subst h
    simp only [joinHandler, enqueue]
    exact ⟨rfl, rfl, rfl⟩

/-- The four-join fixture for FIFO pairing: joins in order A, B, C, D. -/
def joinStep1 : JoinResult := joinHandler [] [] [] "sA" (some "A") true

def joinStep2 : JoinResult :=
  joinHandler joinStep1.db joinStep1.queue joinStep1.games "sB" (some "B") true

def joinStep3 : JoinResult :=
  joinHandler joinStep2.db joinStep2.queue joinStep2.games "sC" (some "C") true

def joinStep4 : JoinResult :=
  joinHandler joinStep3.db joinStep3.queue joinStep3.games "sD" (some "D") true

/-- Witness for `fifo_pairing`: a queue holding B receives joiner `"a"`,
and exactly B and the joiner are paired in that order; and the four-join
fixture pairs {A,B} first and {C,D} second with an empty final queue. -/
theorem fifo_pairing_witness :
    ([qB] ++ [mkJoinPlayer "a" (some "N")] =
      qB :: mkJoinPlayer "a" (some "N") :: []) ∧
    ((joinHandler [] [qB] [] "a" (some "N") true).queue = [] ∧
     (joinHandler [] [qB] [] "a" (some "N") true).games =
       (startMatch [] qB (mkJoinPlayer "a" (some "N")) true).games ∧
     (joinHandler [] [qB] [] "a" (some "N") true).events =
       [OutEvent.profile "a" (mkJoinPlayer "a" (some "N")).name
          (ensurePlayerStats [] (mkJoinPlayer "a" (some "N")).name).2.isSome,
        OutEvent.waiting "a"] ++
         (startMatch [] qB (mkJoinPlayer "a" (some "N")) true).events) ∧
    (joinStep2.games.map (fun e => (e.2.playerX.name, e.2.playerO.name)) =
      [("A", "B")] ∧
     joinStep4.games.map (fun e => (e.2.playerX.name, e.2.playerO.name)) =
      [("A", "B"), ("C", "D")] ∧
     joinStep4.queue = []) :=
  ⟨rfl,
   (fifo_pairing [] [qB] [] "a" (some "N") true).1 qB (mkJoinPlayer "a" (some "N")) [] rfl,
   by decide⟩

/-- C8 counterexample: the `join` handler stores the requested name
verbatim — `" Alice "` keeps its surrounding spaces rather than becoming
the trimmed, truncated `"Alice"` that `normalizeName` would produce, and a
whitespace-only requested name `" "` is truthy in the source, so it does
not default to the connection identifier `"s1"`. -/
theorem join_name_cex :
    (mkJoinPlayer "s1" (some " Alice ")).name = " Alice " ∧
    normalizeName " Alice " = "Alice" ∧
    (mkJoinPlayer "s1" (some " Alice ")).name ≠ normalizeName " Alice " ∧
    (mkJoinPlayer "s1" (some " ")).name = " " ∧
    (mkJoinPlayer "s1" (some " ")).name ≠ "s1" := by
  decide

/-- C8 (amended): the created participant's display name is the requested
name verbatim whenever it is a non-empty string, and defaults to the
connection identifier exactly when the requested name is absent or the
empty string; the raw (untrimmed, untruncated) name is what reaches the
persistence layer, whose `normalizeName` performs the trimming and
truncation to 64 characters. -/
theorem join_name_verbatim (sid : String) (s : String) (hs : s ≠ "")
    (db : DB) (q : List Player) (gs : Registry) (coin : Bool) :
    (mkJoinPlayer sid (some s)).name = s ∧
    (mkJoinPlayer sid (some "")).name = sid ∧
    (mkJoinPlayer sid none).name = sid ∧
    (joinHandler db q gs sid (some s) coin).persist = [PersistCall.ensure s] := by
  have hname : (mkJoinPlayer sid (some s)).name = s := by
    simp [mkJoinPlayer, hs]
  refine ⟨hname, rfl, rfl, ?_⟩
  simp only [joinHandler]
  cases h2 : enqueue q (mkJoinPlayer sid (some s)) with
  | nil => simp [hname]
  | cons p1 tail =>
    cases tail with
    | nil => simp [hname]
    | cons p2 rest => simp [hname]

/-- Witness for `join_name_verbatim` at requested name `" Alice "` and
socket id `"s1"`. -/
theorem join_name_verbatim_witness :
    (" Alice " ≠ "") ∧
    ((mkJoinPlayer "s1" (some " Alice ")).name = " Alice " ∧
     (mkJoinPlayer "s1" (some "")).name = "s1" ∧
     (mkJoinPlayer "s1" none).name = "s1" ∧
     (joinHandler [] [] [] "s1" (some " Alice ") true).persist =
       [PersistCall.ensure " Alice "]) :=
  ⟨by decide, join_name_verbatim "s1" " Alice " (by decide) [] [] [] true⟩

theorem dbGet_cons (e : String × StatsRow) (m : DB) (k : String) :
    dbGet (e :: m) k = if e.1 == k then some e.2 else dbGet m k := by
  unfold dbGet
  by_cases h : (e.1 == k) = true
  · rw [List.find?_cons_of_pos m h, if_pos h]
    rfl
  · rw [List.find?_cons_of_neg m h, if_neg h]

theorem dbGet_map_other (db : DB) (n : String) (v : StatsRow) (k : String)
    (hnk : n ≠ k) :
    dbGet (db.map (fun e => if e.1 == n then (n, v) else e)) k = dbGet db k := by
  induction db with
  | nil => rfl
  | cons e rest ih =>
    simp only [List.map_cons]
    by_cases he : (e.1 == n) = true
    · rw [if_pos he, dbGet_cons, dbGet_cons]
      have heq : e.1 = n := by simpa using he
      rw [if_neg (by simp [hnk]), if_neg (by simp [heq, hnk])]
      exact ih
    · rw [if_neg he, dbGet_cons, dbGet_cons]
      by_cases hek : (e.1 == k) = true
      · rw [if_pos hek, if_pos hek]
      · rw [if_neg hek, if_neg hek]
        exact ih

theorem dbGet_append_one (db : DB) (n : String) (row : StatsRow) (k : String)
    (hnk : n ≠ k) :
    dbGet (db ++ [(n, row)]) k = dbGet db k := by
  induction db with
  | nil =>
    rw [List.nil_append, dbGet_cons, if_neg (by simp [hnk])]
  | cons e rest ih =>
    rw [List.cons_append, dbGet_cons, dbGet_cons]
    by_cases hek : (e.1 == k) = true
    · rw [if_pos hek, if_pos hek]
    · rw [if_neg hek, if_neg hek]
      exact ih

/-- C9: a name whose trimmed form is empty is silently dropped by every
persistence entry point — `addWin`, `addLoss` and `addDraw` leave the
table untouched and `ensurePlayerStats` returns `null` without writing —
and, for every name whatsoever, none of these operations ever creates or
modifies a row under the empty-string key. -/
theorem blank_name_no_write (db : DB) (name : String) (h : jsTrim name = "") :
    addWin db name = db ∧ addLoss db name = db ∧ addDraw db name = db ∧
    ensurePlayerStats db name = (db, none) ∧
    (∀ (db2 : DB) (name2 : String),
      dbGet (addWin db2 name2) "" = dbGet db2 "" ∧
      dbGet (addLoss db2 name2) "" = dbGet db2 "" ∧
      dbGet (addDraw db2 name2) "" = dbGet db2 "" ∧
      dbGet (ensurePlayerStats db2 name2).1 "" = dbGet db2 "") := by
  have hn : normalizeName name = "" := by
    rw [normalizeName, h]
    rfl
  refine ⟨by simp [addWin, hn], by simp [addLoss, hn], by simp [addDraw, hn],
    by simp [ensurePlayerStats, hn], ?_⟩
  intro db2 name2
  by_cases hn2 : normalizeName name2 = ""
  · exact ⟨by simp [addWin, hn2], by simp [addLoss, hn2], by simp [addDraw, hn2],
      by simp [ensurePlayerStats, hn2]⟩
  refine ⟨?_, ?_, ?_, ?_⟩
  · simp only [addWin]
    rw [if_neg hn2]
    cases hget : dbGet db2 (normalizeName name2) with
    | some row => exact dbGet_map_other db2 (normalizeName name2) _ "" hn2
    | none => exact dbGet_append_one db2 (normalizeName name2) _ "" hn2
  · simp only [addLoss]
    rw [if_neg hn2]
    cases hget : dbGet db2 (normalizeName name2) with
    | some row => exact dbGet_map_other db2 (normalizeName name2) _ "" hn2
    | none => exact dbGet_append_one db2 (normalizeName name2) _ "" hn2
  · simp only [addDraw]
    rw [if_neg hn2]
    cases hget : dbGet db2 (normalizeName name2) with
    | some row => exact dbGet_map_other db2 (normalizeName name2) _ "" hn2
    | none => exact dbGet_append_one db2 (normalizeName name2) _ "" hn2
  · simp only [ensurePlayerStats]
    rw [if_neg hn2]
    cases hget : dbGet db2 (normalizeName name2) with
    | some row => rfl
    | none => exact dbGet_append_one db2 (normalizeName name2) _ "" hn2

/-- Witness for `blank_name_no_write`: the whitespace-only name `" "`. -/
theorem blank_name_no_write_witness :
    jsTrim " " = "" ∧
    addWin [("bob", ⟨"bob", 1, 0, 0⟩)] " " = [("bob", ⟨"bob", 1, 0, 0⟩)] ∧
    ensurePlayerStats [("bob", ⟨"bob", 1, 0, 0⟩)] " " =
      ([("bob", ⟨"bob", 1, 0, 0⟩)], none) :=
  ⟨by decide,
   (blank_name_no_write [("bob", ⟨"bob", 1, 0, 0⟩)] " " (by decide)).1,
   (blank_name_no_write [("bob", ⟨"bob", 1, 0, 0⟩)] " " (by decide)).2.2.2.1⟩

end TicTacToe
